import Mathlib

/-!
Verification of the file-integrity ledger implemented in
`backend/src/server.js`, the audit-trail filter in
`src/components/AuditTrail.tsx`, and the on-chain mirror in
`blockchain/contracts/FileIntegrity.sol`.

File content is modelled as a list of bytes (`List Nat`, each entry taken
mod 256 where it matters).  The backend's in-memory `fileRecords` JavaScript
`Map` is modelled as an association list in insertion order with JavaScript
`Map.set` semantics (replace in place when the key is present, append
otherwise).  Node's `crypto.createHash('sha256')`/`digest('hex')` is the
standard FIPS 180-4 SHA-256 with lowercase hexadecimal output, implemented
below; the sha1 used by the simulated IPFS address is likewise FIPS 180-4
SHA-1.
-/

/-- Addition of 32-bit words, modulo 2^32. -/
def add32 (a b : Nat) : Nat := (a + b) % 4294967296

/-- Rotation of a word to the right by `n` bits. -/
def rotr32 (n x : Nat) : Nat := ((x >>> n) ||| (x <<< (32 - n))) % 4294967296

/-- Rotation of a word to the left by `n` bits. -/
def rotl32 (n x : Nat) : Nat := ((x <<< n) ||| (x >>> (32 - n))) % 4294967296

/-- Logical right shift. -/
def shr32 (n x : Nat) : Nat := x >>> n

/-- SHA-256 Σ0. -/
def bigSigma0 (x : Nat) : Nat := (rotr32 2 x) ^^^ (rotr32 13 x) ^^^ (rotr32 22 x)

/-- SHA-256 Σ1. -/
def bigSigma1 (x : Nat) : Nat := (rotr32 6 x) ^^^ (rotr32 11 x) ^^^ (rotr32 25 x)

/-- SHA-256 σ0. -/
def smallSigma0 (x : Nat) : Nat := (rotr32 7 x) ^^^ (rotr32 18 x) ^^^ (shr32 3 x)

/-- SHA-256 σ1. -/
def smallSigma1 (x : Nat) : Nat := (rotr32 17 x) ^^^ (rotr32 19 x) ^^^ (shr32 10 x)

/-- SHA-256 Ch. -/
def chFn (x y z : Nat) : Nat := (x &&& y) ^^^ ((x ^^^ 4294967295) &&& z)

/-- SHA-256 Maj. -/
def majFn (x y z : Nat) : Nat := (x &&& y) ^^^ (x &&& z) ^^^ (y &&& z)

/-- Round constants of SHA-256 (FIPS 180-4 section 4.2.2), in decimal. -/
def sha256K : List Nat :=
  [1116352408, 1899447441, 3049323471, 3921009573, 961987163, 1508970993,
   2453635748, 2870763221, 3624381080, 310598401, 607225278, 1426881987,
   1925078388, 2162078206, 2614888103, 3248222580, 3835390401, 4022224774,
   264347078, 604807628, 770255983, 1249150122, 1555081692, 1996064986,
   2554220882, 2821834349, 2952996808, 3210313671, 3336571891, 3584528711,
   113926993, 338241895, 666307205, 773529912, 1294757372, 1396182291,
   1695183700, 1986661051, 2177026350, 2456956037, 2730485921, 2820302411,
   3259730800, 3345764771, 3516065817, 3600352804, 4094571909, 275423344,
   430227734, 506948616, 659060556, 883997877, 958139571, 1322822218,
   1537002063, 1747873779, 1955562222, 2024104815, 2227730452, 2361852424,
   2428436474, 2756734187, 3204031479, 3329325298]

/-- SHA-256 working state (eight 32-bit words). -/
structure Sha256State where
  a : Nat
  b : Nat
  c : Nat
  d : Nat
  e : Nat
  f : Nat
  g : Nat
  h : Nat
deriving Repr, DecidableEq

/-- SHA-256 initial hash value. -/
def sha256Init : Sha256State :=
  ⟨1779033703, 3144134277, 1013904242, 2773480762,
   1359893119, 2600822924, 528734635, 1541459225⟩

/-- One SHA-256 compression round; the pair carries (schedule word, round constant). -/
def sha256Round (st : Sha256State) (kw : Nat × Nat) : Sha256State :=
  let t1 := add32 st.h (add32 (bigSigma1 st.e) (add32 (chFn st.e st.f st.g) (add32 kw.2 kw.1)))
  let t2 := add32 (bigSigma0 st.a) (majFn st.a st.b st.c)
  ⟨add32 t1 t2, st.a, st.b, st.c, add32 st.d t1, st.e, st.f, st.g⟩

/-- Big-endian 32-bit word from four bytes. -/
def bytesToWord (b0 b1 b2 b3 : Nat) : Nat :=
  ((b0 % 256) <<< 24) + ((b1 % 256) <<< 16) + ((b2 % 256) <<< 8) + (b3 % 256)

/-- The 16 message words of one 64-byte block. -/
def blockWords (block : List Nat) : List Nat :=
  (List.range 16).map (fun i =>
    bytesToWord (block.getD (4 * i) 0) (block.getD (4 * i + 1) 0)
      (block.getD (4 * i + 2) 0) (block.getD (4 * i + 3) 0))

/-- Extend the 16 message words by `n` further SHA-256 schedule words. -/
def extendWords (ws : List Nat) : Nat → List Nat
  | 0 => ws
  | Nat.succ n =>
      let prev := extendWords ws n
      let m := prev.length
      prev ++ [add32 (add32 (smallSigma1 (prev.getD (m - 2) 0)) (prev.getD (m - 7) 0))
        (add32 (smallSigma0 (prev.getD (m - 15) 0)) (prev.getD (m - 16) 0))]

/-- SHA-256 compression of one 64-byte block. -/
def sha256Block (hv : Sha256State) (block : List Nat) : Sha256State :=
  let ws := extendWords (blockWords block) 48
  let st := (ws.zip sha256K).foldl sha256Round hv
  ⟨add32 hv.a st.a, add32 hv.b st.b, add32 hv.c st.c, add32 hv.d st.d,
   add32 hv.e st.e, add32 hv.f st.f, add32 hv.g st.g, add32 hv.h st.h⟩

/-- Merkle-Damgård padding shared by SHA-256 and SHA-1: append 0x80, zero
bytes, then the 64-bit big-endian bit length, to a multiple of 64 bytes. -/
def padMessage (msg : List Nat) : List Nat :=
  let len := msg.length
  let bitLen := 8 * len
  let zeros := (64 - ((len + 9) % 64)) % 64
  msg ++ [128] ++ List.replicate zeros 0 ++
    (List.range 8).map (fun i => (bitLen >>> (56 - 8 * i)) % 256)

/-- Split into 64-byte blocks, with fuel bounding the number of steps. -/
def toBlocksAux : Nat → List Nat → List (List Nat)
  | 0, _ => []
  | _, [] => []
  | Nat.succ n, l => l.take 64 :: toBlocksAux n (l.drop 64)

/-- Split a padded message into 64-byte blocks. -/
def toBlocks (l : List Nat) : List (List Nat) := toBlocksAux l.length l

/-- SHA-256 of a byte sequence. -/
def sha256 (msg : List Nat) : Sha256State :=
  (toBlocks (padMessage msg)).foldl sha256Block sha256Init

/-- The sixteen lowercase hexadecimal digits. -/
def hexDigits : List Char := "0123456789abcdef".toList

/-- Lowercase hexadecimal digit of a nibble. -/
def hexChar (n : Nat) : Char :=
  match n with
  | 0 => '0'
  | 1 => '1'
  | 2 => '2'
  | 3 => '3'
  | 4 => '4'
  | 5 => '5'
  | 6 => '6'
  | 7 => '7'
  | 8 => '8'
  | 9 => '9'
  | 10 => 'a'
  | 11 => 'b'
  | 12 => 'c'
  | 13 => 'd'
  | 14 => 'e'
  | _ => 'f'

/-- Lowercase hexadecimal rendering of one 32-bit word (8 nibbles, big-endian). -/
def wordHex (w : Nat) : List Char :=
  (List.range 8).map (fun i => hexChar ((w >>> (28 - 4 * i)) % 16))

/-- Node's `crypto.createHash('sha256').update(bytes).digest('hex')`. -/
def sha256Hex (msg : List Nat) : String :=
  let st := sha256 msg
  String.mk (wordHex st.a ++ wordHex st.b ++ wordHex st.c ++ wordHex st.d ++
    wordHex st.e ++ wordHex st.f ++ wordHex st.g ++ wordHex st.h)

/-- The function `calculateFileHash` (server.js lines 51-68): SHA-256 of the file's bytes,
streamed into the hash and emitted as a lowercase hex digest. -/
def calculateFileHash (content : List Nat) : String := sha256Hex content

/-- SHA-1 working state (five 32-bit words), for the simulated IPFS address. -/
structure Sha1State where
  a : Nat
  b : Nat
  c : Nat
  d : Nat
  e : Nat
deriving Repr, DecidableEq

/-- SHA-1 initial hash value. -/
def sha1Init : Sha1State :=
  ⟨1732584193, 4023233417, 2562383102, 271733878, 3285377520⟩

/-- SHA-1 round function, by round index. -/
def sha1F (t b c d : Nat) : Nat :=
  if t < 20 then (b &&& c) ||| ((b ^^^ 4294967295) &&& d)
  else if t < 40 then b ^^^ c ^^^ d
  else if t < 60 then (b &&& c) ||| (b &&& d) ||| (c &&& d)
  else b ^^^ c ^^^ d

/-- SHA-1 round constant, by round index. -/
def sha1KOf (t : Nat) : Nat :=
  if t < 20 then 1518500249
  else if t < 40 then 1859775393
  else if t < 60 then 2400959708
  else 3395469782

/-- Extend the 16 message words by `n` further SHA-1 schedule words. -/
def sha1Extend (ws : List Nat) : Nat → List Nat
  | 0 => ws
  | Nat.succ n =>
      let prev := sha1Extend ws n
      let m := prev.length
      prev ++ [rotl32 1 ((prev.getD (m - 3) 0) ^^^ (prev.getD (m - 8) 0) ^^^
        (prev.getD (m - 14) 0) ^^^ (prev.getD (m - 16) 0))]

/-- One SHA-1 round; the pair carries (round index, schedule word). -/
def sha1Round (st : Sha1State) (tw : Nat × Nat) : Sha1State :=
  let temp := add32 (add32 (rotl32 5 st.a) (sha1F tw.1 st.b st.c st.d))
    (add32 st.e (add32 (sha1KOf tw.1) tw.2))
  ⟨temp, st.a, rotl32 30 st.b, st.c, st.d⟩

/-- SHA-1 compression of one 64-byte block. -/
def sha1Block (hv : Sha1State) (block : List Nat) : Sha1State :=
  let ws := sha1Extend (blockWords block) 64
  let st := ((List.range 80).zip ws).foldl sha1Round hv
  ⟨add32 hv.a st.a, add32 hv.b st.b, add32 hv.c st.c, add32 hv.d st.d, add32 hv.e st.e⟩

/-- Node's `crypto.createHash('sha1').update(s).digest('hex')`. -/
def sha1Hex (msg : List Nat) : String :=
  let st := (toBlocks (padMessage msg)).foldl sha1Block sha1Init
  String.mk (wordHex st.a ++ wordHex st.b ++ wordHex st.c ++ wordHex st.d ++ wordHex st.e)

/-- The UTF-16/ASCII code units of a string, as the byte list Node hashes for
the simulated IPFS address (only ASCII names occur in practice). -/
def strBytes (s : String) : List Nat := s.toList.map Char.toNat

/-! ## Backend data model (server.js) -/

/-- The stored file record (server.js lines 112-122).  `id` is
`Date.now().toString()`; `uploadTime` is the insertion time (rendered as an
ISO string in the source, kept as the numeric timestamp here). -/
structure FileRecord where
  id : String
  originalName : String
  filePath : String
  fileHash : String
  ipfsHash : String
  description : String
  uploadTime : Nat
  size : Nat
  mimetype : String
deriving Repr, DecidableEq

/-- A multipart upload as multer delivers it: original name, content bytes
and MIME type (`size` is the content length). -/
structure UploadedFile where
  originalname : String
  content : List Nat
  mimetype : String
deriving Repr, DecidableEq

/-- The in-memory `fileRecords` JavaScript `Map`, in insertion order. -/
abbrev Ledger := List (String × FileRecord)

/-- JavaScript `Map.set`: replace in place when the key is already present,
otherwise append (insertion order is preserved). -/
def mapSet (m : Ledger) (k : String) (v : FileRecord) : Ledger :=
  if m.any (fun p => p.1 == k) then
    m.map (fun p => if p.1 == k then (k, v) else p)
  else m ++ [(k, v)]

/-- JavaScript `Array.from(map.values())`: the values in insertion order. -/
def mapValues (m : Ledger) : List FileRecord := m.map Prod.snd

/-- The function `simulateIPFSUpload` (server.js lines 73-77): a mock address from the
sha1 of `filename + Date.now()`, truncated to 44 characters after `Qm`. -/
def simulateIPFSUpload (filename : String) (now : Nat) : String :=
  "Qm" ++ String.mk ((sha1Hex (strBytes (filename ++ toString now))).toList.take 44)

/-- The upload/audit response record (server.js lines 127-136 and 255-264):
every stored field except the internal `filePath`. -/
structure FileSummary where
  id : String
  originalName : String
  fileHash : String
  ipfsHash : String
  description : String
  uploadTime : Nat
  size : Nat
  mimetype : String
deriving Repr, DecidableEq

/-- The record metadata returned by a successful verification
(server.js lines 179-185 and 225-231). -/
structure VerifyData where
  id : String
  originalName : String
  fileHash : String
  uploadTime : Nat
  description : String
deriving Repr, DecidableEq

/-- The JSON responses of the four modelled routes. -/
inductive Response where
  | err (status : Nat) (msg : String)
  | uploadOk (data : FileSummary)
  | verifyValid (data : VerifyData)
  | verifyInvalid (calculatedHash : Option String)
  | fileList (count : Nat) (data : List FileSummary)
deriving Repr, DecidableEq

/-- Metadata of a matched record as the verify routes return it. -/
def toVerifyData (r : FileRecord) : VerifyData :=
  ⟨r.id, r.originalName, r.fileHash, r.uploadTime, r.description⟩

/-- Response view of a stored record (drops `filePath`). -/
def toSummary (r : FileRecord) : FileSummary :=
  ⟨r.id, r.originalName, r.fileHash, r.ipfsHash, r.description, r.uploadTime, r.size, r.mimetype⟩

/-! ## Backend routes (server.js) -/

/-- Route `POST /api/upload` (server.js lines 95-151).  With no file: 400.
Otherwise hash the content, build the record with `id = Date.now()
.toString()` and store it with `fileRecords.set`. -/
def handleUpload (recs : Ledger) (file : Option UploadedFile) (description : String)
    (now : Nat) : Ledger × Response :=
  match file with
  | none => (recs, Response.err 400 "No file uploaded")
  | some f =>
      let filePath := "./uploads/" ++ toString now ++ "-" ++ f.originalname
      let fileHash := calculateFileHash f.content
      let ipfsHash := simulateIPFSUpload f.originalname now
      let fileRecord : FileRecord :=
        ⟨toString now, f.originalname, filePath, fileHash, ipfsHash, description,
          now, f.content.length, f.mimetype⟩
      (mapSet recs fileRecord.id fileRecord, Response.uploadOk (toSummary fileRecord))

/-- Route `POST /api/verify` (server.js lines 156-203).  With no file: 400.
Otherwise hash the content and return the first record (in `Map` insertion
order) with that hash, or `isValid: false` with the `calculatedHash`. -/
def handleVerify (recs : Ledger) (file : Option UploadedFile) : Ledger × Response :=
  match file with
  | none => (recs, Response.err 400 "No file provided for verification")
  | some f =>
      let calculatedHash := calculateFileHash f.content
      match (mapValues recs).find? (fun r => r.fileHash == calculatedHash) with
      | some r => (recs, Response.verifyValid (toVerifyData r))
      | none => (recs, Response.verifyInvalid (some calculatedHash))

/-- Route `POST /api/verify-hash` (server.js lines 208-248).  `if (!fileHash)`
rejects a missing or empty hash with 400; otherwise look up the first record
with that hash; a miss answers `isValid: false` with no `calculatedHash`. -/
def handleVerifyHash (recs : Ledger) (fileHash : Option String) : Ledger × Response :=
  match fileHash with
  | none => (recs, Response.err 400 "File hash is required")
  | some h =>
      if h == "" then (recs, Response.err 400 "File hash is required")
      else
        match (mapValues recs).find? (fun r => r.fileHash == h) with
        | some r => (recs, Response.verifyValid (toVerifyData r))
        | none => (recs, Response.verifyInvalid none)

/-- Route `GET /api/files` (server.js lines 253-279): all records in insertion
order, without `filePath`, together with their count. -/
def handleFiles (recs : Ledger) : Ledger × Response :=
  let files := (mapValues recs).map toSummary
  (recs, Response.fileList files.length files)

/-- The four modelled requests. -/
inductive Request where
  | upload (file : Option UploadedFile) (description : String) (now : Nat)
  | verify (file : Option UploadedFile)
  | verifyHash (fileHash : Option String)
  | listFiles
deriving Repr

/-- One request against the server: the new `fileRecords` state and the
response. -/
def step (req : Request) (recs : Ledger) : Ledger × Response :=
  match req with
  | Request.upload f d now => handleUpload recs f d now
  | Request.verify f => handleVerify recs f
  | Request.verifyHash h => handleVerifyHash recs h
  | Request.listFiles => handleFiles recs

/-! ## Audit-trail filter (AuditTrail.tsx) -/

/-- JavaScript `String.prototype.includes`: contiguous substring test. -/
def includesStr (s sub : String) : Bool := decide (sub.toList <:+: s.toList)

/-- The AuditTrail search predicate (AuditTrail.tsx lines 61-65):
case-insensitive substring match against name, description or hash. -/
def matchesSearch (f : FileSummary) (searchTerm : String) : Bool :=
  includesStr f.originalName.toLower searchTerm.toLower ||
  includesStr f.description.toLower searchTerm.toLower ||
  includesStr f.fileHash.toLower searchTerm.toLower

/-- The AuditTrail filter effect (AuditTrail.tsx lines 56-68): a blank
search term shows every file, otherwise keep the matching ones. -/
def filterFiles (files : List FileSummary) (searchTerm : String) : List FileSummary :=
  if searchTerm.trim == "" then files
  else files.filter (fun f => matchesSearch f searchTerm)

/-- The summaries `GET /api/files` serves, in insertion order. -/
def listRecords (recs : Ledger) : List FileSummary := (mapValues recs).map toSummary

/-- The audit view after the frontend filter. -/
def auditView (recs : Ledger) (searchTerm : String) : List FileSummary :=
  filterFiles (listRecords recs) searchTerm

/-- Run a batch of registrations (file, description, timestamp) in order. -/
def registerAll (recs : Ledger) : List (UploadedFile × String × Nat) → Ledger
  | [] => recs
  | (f, d, now) :: rest => registerAll (handleUpload recs (some f) d now).1 rest

/-- The summary a successful registration of batch entry `e` produces. -/
def expectedSummary (e : UploadedFile × String × Nat) : FileSummary :=
  ⟨toString e.2.2, e.1.originalname, calculateFileHash e.1.content,
    simulateIPFSUpload e.1.originalname e.2.2, e.2.1, e.2.2,
    e.1.content.length, e.1.mimetype⟩

/-! ## On-chain mirror (FileIntegrity.sol) -/

/-- Solidity `FileRecord` (FileIntegrity.sol lines 11-19). -/
structure SolRecord where
  fileName : String
  fileHash : String
  ipfsHash : String
  uploader : String
  timestamp : Nat
  existsFlag : Bool
  description : String
deriving Repr, DecidableEq

/-- Contract storage (FileIntegrity.sol lines 22-31): `files`,
`hashToFileId` (0 when absent, as for a Solidity mapping default),
`uploaderFiles` and the `currentFileId` counter. -/
structure SolState where
  files : List (Nat × SolRecord)
  hashToFileId : List (String × Nat)
  uploaderFiles : List (String × List Nat)
  currentFileId : Nat
deriving Repr, DecidableEq

/-- Freshly deployed contract: every mapping empty, counter 0. -/
def solInit : SolState := ⟨[], [], [], 0⟩

/-- Solidity mapping read with default 0. -/
def solMappingGet (m : List (String × Nat)) (k : String) : Nat :=
  match m.find? (fun p => p.1 == k) with
  | some p => p.2
  | none => 0

/-- Append `v` to `m[k]` (Solidity `uploaderFiles[msg.sender].push`). -/
def solPush (m : List (String × List Nat)) (k : String) (v : Nat) : List (String × List Nat) :=
  if m.any (fun p => p.1 == k) then
    m.map (fun p => if p.1 == k then (p.1, p.2 ++ [v]) else p)
  else m ++ [(k, [v])]

/-- Solidity `uploadFile` (FileIntegrity.sol lines 68-104): requires a non-empty
name, a non-empty hash and an unused hash, then stores the record under
`currentFileId + 1`.  A failed `require` reverts with its message. -/
def uploadFile (st : SolState) (fileName fileHash ipfsHash description uploader : String)
    (ts : Nat) : Except String (SolState × Nat) :=
  if fileName.length == 0 then Except.error "File name cannot be empty"
  else if fileHash.length == 0 then Except.error "File hash cannot be empty"
  else if solMappingGet st.hashToFileId fileHash != 0 then
    Except.error "File with this hash already exists"
  else
    let fileId := st.currentFileId + 1
    Except.ok
      (⟨st.files ++ [(fileId, ⟨fileName, fileHash, ipfsHash, uploader, ts, true, description⟩)],
        st.hashToFileId ++ [(fileHash, fileId)],
        solPush st.uploaderFiles uploader fileId,
        fileId⟩, fileId)

/-- Registering the same hash twice on a fresh contract: the outcome of the
second `uploadFile` call. -/
def solDoubleUpload : Except String Nat :=
  match uploadFile solInit "a.txt" "aa" "ipfs1" "first" "alice" 5 with
  | Except.error e => Except.error e
  | Except.ok (st1, _) =>
      match uploadFile st1 "b.txt" "aa" "ipfs2" "second" "bob" 6 with
      | Except.error e => Except.error e
      | Except.ok (_, id2) => Except.ok id2

/-- The ledger record a successful registration of batch entry `e`
(file, description, timestamp) stores. -/
def expectedRecord (e : UploadedFile × String × Nat) : FileRecord :=
  ⟨toString e.2.2, e.1.originalname,
    "./uploads/" ++ toString e.2.2 ++ "-" ++ e.1.originalname,
    calculateFileHash e.1.content, simulateIPFSUpload e.1.originalname e.2.2, e.2.1, e.2.2,
    e.1.content.length, e.1.mimetype⟩

/-- A concrete stored record for the verify-by-fingerprint witness. -/
def recW : FileRecord := ⟨"1", "w.txt", "pw", "aa", "iw", "dw", 5, 2, "text/plain"⟩

/-- Earliest-inserted of two records sharing a fingerprint. -/
def dupA : FileRecord := ⟨"1", "a.txt", "pa", calculateFileHash [97], "ia", "da", 1, 1, "text/plain"⟩

/-- Later-inserted record with the same fingerprint as `dupA`. -/
def dupB : FileRecord := ⟨"2", "b.txt", "pb", calculateFileHash [97], "ib", "db", 2, 1, "text/plain"⟩


/-! ## Known-answer checks of the hash embedding -/

/-- FIPS 180-4 test vector: the digest of the bytes of "abc". -/
theorem sha256Hex_abc :
    calculateFileHash (strBytes "abc")
      = "ba7816bf8f01cfea414140de5dae2223b00361a396177a9cb410ff61f20015ad" := by rfl

/-- SHA-256 of the empty byte sequence. -/
theorem sha256Hex_empty :
    calculateFileHash []
      = "e3b0c44298fc1c149afbf4c8996fb92427ae41e4649b934ca495991b7852b855" := by rfl

set_option maxRecDepth 8192 in
/-- FIPS 180-1 test vector: the SHA-1 digest of the bytes of "abc". -/
theorem sha1Hex_abc :
    sha1Hex (strBytes "abc") = "a9993e364706816aba3e25717850c26c9cd0d89d" := by rfl

/-! ## Helper lemmas -/

/-- Every nibble renders to one of the sixteen lowercase hex digits. -/
theorem hexChar_mem (n : Nat) : hexChar n ∈ hexDigits := by
  unfold hexChar
  split <;> decide

/-- One word renders to eight characters. -/
theorem wordHex_length (w : Nat) : (wordHex w).length = 8 := by
  simp [wordHex]

/-- Characters of a rendered word are lowercase hex digits. -/
theorem wordHex_mem {c : Char} {w : Nat} (h : c ∈ wordHex w) : c ∈ hexDigits := by
  simp only [wordHex, List.mem_map, List.mem_range] at h
  obtain ⟨i, _, rfl⟩ := h
  exact hexChar_mem _

/-- The digest always has 64 characters. -/
theorem calculateFileHash_length (b : List Nat) : (calculateFileHash b).length = 64 := by
  simp [calculateFileHash, sha256Hex, String.length_mk, List.length_append, wordHex_length]

/-- The digest is never the empty string. -/
theorem calculateFileHash_ne_empty (b : List Nat) : calculateFileHash b ≠ "" := by
  intro h
  have := calculateFileHash_length b
  rw [h] at this
  exact absurd this (by decide)

/-- Every character of the digest is a lowercase hex digit. -/
theorem calculateFileHash_chars {b : List Nat} {c : Char}
    (h : c ∈ (calculateFileHash b).toList) : c ∈ hexDigits := by
  simp only [calculateFileHash, sha256Hex, String.toList, List.mem_append] at h
  rcases h with ((((((h | h) | h) | h) | h) | h) | h) | h <;> exact wordHex_mem h

/-- Inserting a fresh key appends. -/
theorem mapSet_not_mem (m : Ledger) (k : String) (v : FileRecord)
    (h : m.any (fun p => p.1 == k) = false) : mapSet m k v = m ++ [(k, v)] := by
  simp [mapSet, h]

/-- After `mapSet m k v` the value `v` is among the stored values. -/
theorem mem_mapValues_mapSet (m : Ledger) (k : String) (v : FileRecord) :
    v ∈ mapValues (mapSet m k v) := by
  unfold mapSet mapValues
  rcases hc : m.any (fun p => p.1 == k) with _ | _
  · simp [hc]
  · simp only [hc, if_true]
    obtain ⟨p, hp, hpk⟩ := List.any_eq_true.mp hc
    rw [List.map_map]
    have hk : p.1 = k := by simpa using hpk
    exact List.mem_map.mpr ⟨p, hp, by simp [hk]⟩

/-- A list containing a record with hash `h` yields a `find?` hit whose
hash is `h`. -/
theorem find?_fileHash_of_mem {l : List FileRecord} {h : String} {r : FileRecord}
    (hm : r ∈ l) (hr : r.fileHash = h) :
    ∃ x, l.find? (fun x => x.fileHash == h) = some x ∧ x.fileHash = h := by
  have hs : (l.find? (fun x => x.fileHash == h)).isSome :=
    List.find?_isSome.mpr ⟨r, hm, by simp [hr]⟩
  obtain ⟨x, hx⟩ := Option.isSome_iff_exists.mp hs
  refine ⟨x, hx, ?_⟩
  have := List.find?_some hx
  simpa using this

/-- A list with no record of hash `h` yields a `find?` miss. -/
theorem find?_fileHash_none {l : List FileRecord} {h : String}
    (hnone : ∀ r ∈ l, r.fileHash ≠ h) :
    l.find? (fun x => x.fileHash == h) = none :=
  List.find?_eq_none.mpr (fun x hx => by simpa using hnone x hx)

/-! ## Claim theorems -/

/-- C8: the fingerprint function is a pure, deterministic function of the
input bytes: hashing the same bytes twice yields identical output, and the
digest is always a fixed-length lowercase hexadecimal string of 64
characters. -/
theorem fingerprint_deterministic_hex (b : List Nat) :
    calculateFileHash b = calculateFileHash b ∧
    (calculateFileHash b).length = 64 ∧
    ∀ c ∈ (calculateFileHash b).toList, c ∈ hexDigits :=
  ⟨rfl, calculateFileHash_length b, fun _ hc => calculateFileHash_chars hc⟩

/-- Witness for C8 at the bytes of "abc". -/
theorem fingerprint_deterministic_hex_witness :
    (calculateFileHash (strBytes "abc")).length = 64 ∧ 'b' ∈ hexDigits :=
  ⟨(fingerprint_deterministic_hex (strBytes "abc")).2.1,
   (fingerprint_deterministic_hex (strBytes "abc")).2.2 'b' (by decide)⟩

/-- C9: verification is read-only with respect to the ledger: a
verify-by-content or verify-by-hash request leaves the `fileRecords`
table unchanged, whatever its input. -/
theorem verification_read_only (recs : Ledger) (file : Option UploadedFile)
    (fh : Option String) :
    (step (Request.verify file) recs).1 = recs ∧
    (step (Request.verifyHash fh) recs).1 = recs := by
  constructor
  · cases file with
    | none => rfl
    | some f =>
        simp only [step, handleVerify]
        split <;> rfl
  · cases fh with
    | none => rfl
    | some h =>
        simp only [step, handleVerifyHash]
        split
        · rfl
        · split <;> rfl

/-- C2: round-trip verification: a successful registration stores a record
whose fingerprint is the digest of the submitted bytes, and verifying the
same bytes immediately answers valid with that same fingerprint, which is
also the fingerprint the registration response carried. -/
theorem register_roundtrip (recs : Ledger) (f : UploadedFile) (desc : String) (now : Nat) :
    ∃ d s, (handleUpload recs (some f) desc now).2 = Response.uploadOk s ∧
      handleVerify (handleUpload recs (some f) desc now).1 (some f)
        = ((handleUpload recs (some f) desc now).1, Response.verifyValid d) ∧
      d.fileHash = s.fileHash ∧ s.fileHash = calculateFileHash f.content := by
  have h1 : (handleUpload recs (some f) desc now).1
      = mapSet recs (toString now)
        ⟨toString now, f.originalname,
          "./uploads/" ++ toString now ++ "-" ++ f.originalname,
          calculateFileHash f.content, simulateIPFSUpload f.originalname now, desc, now,
          f.content.length, f.mimetype⟩ := rfl
  have hmem : (⟨toString now, f.originalname,
      "./uploads/" ++ toString now ++ "-" ++ f.originalname,
      calculateFileHash f.content, simulateIPFSUpload f.originalname now, desc, now,
      f.content.length, f.mimetype⟩ : FileRecord)
      ∈ mapValues ((handleUpload recs (some f) desc now).1) := by
    rw [h1]; exact mem_mapValues_mapSet recs (toString now) _
  obtain ⟨x, hx, hxh⟩ := find?_fileHash_of_mem hmem rfl
  refine ⟨toVerifyData x, _, rfl, ?_, ?_, rfl⟩
  · simp [handleVerify, hx]
  · simpa [toVerifyData] using hxh

/-- C6: a verification miss is a successful negative result: when no stored
record carries the computed fingerprint, verify-by-content answers
valid `false` and surfaces the computed fingerprint, with the ledger
untouched and no error response. -/
theorem verify_negative (recs : Ledger) (f : UploadedFile)
    (h : ∀ r ∈ mapValues recs, r.fileHash ≠ calculateFileHash f.content) :
    handleVerify recs (some f)
      = (recs, Response.verifyInvalid (some (calculateFileHash f.content))) := by
  have hn := find?_fileHash_none h
  simp [handleVerify, hn]

/-- Witness for C6: verifying unregistered bytes on the empty ledger. -/
theorem verify_negative_witness :
    handleVerify [] (some ⟨"m.txt", [109], "text/plain"⟩)
      = ([], Response.verifyInvalid (some (calculateFileHash [109]))) :=
  verify_negative [] ⟨"m.txt", [109], "text/plain"⟩ (by simp [mapValues])

/-- C7: verify-by-fingerprint rejects exactly the empty string; any
non-empty fingerprint is looked up with no hashing step, a hit returns the
matched record's metadata (its display name included), and a miss returns
an invalid result with no computed fingerprint. -/
theorem verify_hash_lookup (recs : Ledger) (fh : String) :
    ((handleVerifyHash recs (some fh)).2 = Response.err 400 "File hash is required" ↔ fh = "") ∧
    (fh ≠ "" → ∀ x, (mapValues recs).find? (fun r => r.fileHash == fh) = some x →
      handleVerifyHash recs (some fh) = (recs, Response.verifyValid (toVerifyData x)) ∧
      x.fileHash = fh ∧ x ∈ mapValues recs) ∧
    (fh ≠ "" → (∀ r ∈ mapValues recs, r.fileHash ≠ fh) →
      handleVerifyHash recs (some fh) = (recs, Response.verifyInvalid none)) := by
  refine ⟨⟨?_, ?_⟩, ?_, ?_⟩
  · intro he
    by_contra hne
    have hbeq : (fh == "") = false := by simpa using hne
    rcases hfind : (mapValues recs).find? (fun r => r.fileHash == fh) with _ | x <;>
      simp [handleVerifyHash, hbeq, hfind] at he
  · intro he; subst he; rfl
  · intro hne x hfind
    have hbeq : (fh == "") = false := by simpa using hne
    exact ⟨by simp [handleVerifyHash, hbeq, hfind],
      by simpa using List.find?_some hfind, List.mem_of_find?_eq_some hfind⟩
  · intro hne hnone
    have hbeq : (fh == "") = false := by simpa using hne
    have hn := find?_fileHash_none hnone
    simp [handleVerifyHash, hbeq, hn]

/-- Witness for C7: empty string rejected, a stored fingerprint found with
its metadata, an unknown fingerprint answered invalid without a computed
fingerprint. -/
theorem verify_hash_lookup_witness :
    (handleVerifyHash [("1", recW)] (some "")).2 = Response.err 400 "File hash is required" ∧
    handleVerifyHash [("1", recW)] (some "aa")
      = ([("1", recW)], Response.verifyValid (toVerifyData recW)) ∧
    handleVerifyHash [("1", recW)] (some "zz")
      = ([("1", recW)], Response.verifyInvalid none) :=
  ⟨(verify_hash_lookup [("1", recW)] "").1.mpr rfl,
   ((verify_hash_lookup [("1", recW)] "aa").2.1 (by decide) recW (by decide)).1,
   (verify_hash_lookup [("1", recW)] "zz").2.2 (by decide) (by decide)⟩

/-- C10: with several records sharing one fingerprint, both verification
entry points return the earliest-inserted matching record: the first match
in the table's insertion order, whatever comes after it. -/
theorem verify_first_match (pre post : Ledger) (k : String) (r : FileRecord) (f : UploadedFile)
    (hhash : r.fileHash = calculateFileHash f.content)
    (hpre : ∀ q ∈ mapValues pre, q.fileHash ≠ r.fileHash)
    (hne : r.fileHash ≠ "") :
    (handleVerify (pre ++ (k, r) :: post) (some f)).2 = Response.verifyValid (toVerifyData r) ∧
    (handleVerifyHash (pre ++ (k, r) :: post) (some r.fileHash)).2
      = Response.verifyValid (toVerifyData r) := by
  have hvals : mapValues (pre ++ (k, r) :: post) = mapValues pre ++ r :: mapValues post := by
    simp [mapValues]
  have hfind : ∀ h : String, r.fileHash = h →
      (mapValues (pre ++ (k, r) :: post)).find? (fun x => x.fileHash == h) = some r := by
    intro h hh
    rw [hvals, List.find?_append]
    have hl : (mapValues pre).find? (fun x => x.fileHash == h) = none :=
      find?_fileHash_none (fun q hq => hh ▸ hpre q hq)
    have hr : (r :: mapValues post).find? (fun x => x.fileHash == h) = some r :=
      List.find?_cons_of_pos _ (by simp [hh])
    rw [hl, hr]
    rfl
  constructor
  · have hf := hfind (calculateFileHash f.content) hhash
    simp [handleVerify, hf]
  · have hf := hfind r.fileHash rfl
    have hbeq : (r.fileHash == "") = false := by simpa using hne
    simp [handleVerifyHash, hbeq, hf]

/-- Witness for C10: two records with one fingerprint, earliest returned. -/
theorem verify_first_match_witness :
    (handleVerify ([] ++ ("1", dupA) :: [("2", dupB)]) (some ⟨"a.txt", [97], "text/plain"⟩)).2
      = Response.verifyValid (toVerifyData dupA) ∧
    (handleVerifyHash ([] ++ ("1", dupA) :: [("2", dupB)]) (some dupA.fileHash)).2
      = Response.verifyValid (toVerifyData dupA) :=
  verify_first_match [] [("2", dupB)] "1" dupA ⟨"a.txt", [97], "text/plain"⟩ rfl
    (by simp [mapValues]) (calculateFileHash_ne_empty [97])

/-- C1 (code-bug evaluation): registering byte-identical content twice in
the backend succeeds both times and stores two records carrying the same
fingerprint — the upload route has no duplicate check — while the
repository's own on-chain `uploadFile` rejects the second registration of
an already-stored hash. -/
theorem duplicate_fingerprint_not_enforced :
    (handleUpload [] (some ⟨"a.txt", [104, 105], "text/plain"⟩) "first" 1000).2
      = Response.uploadOk (expectedSummary (⟨"a.txt", [104, 105], "text/plain"⟩, "first", 1000)) ∧
    (handleUpload (handleUpload [] (some ⟨"a.txt", [104, 105], "text/plain"⟩) "first" 1000).1
        (some ⟨"a.txt", [104, 105], "text/plain"⟩) "second" 1001).2
      = Response.uploadOk (expectedSummary (⟨"a.txt", [104, 105], "text/plain"⟩, "second", 1001)) ∧
    (mapValues (handleUpload
        (handleUpload [] (some ⟨"a.txt", [104, 105], "text/plain"⟩) "first" 1000).1
        (some ⟨"a.txt", [104, 105], "text/plain"⟩) "second" 1001).1).map (fun r => r.fileHash)
      = [calculateFileHash [104, 105], calculateFileHash [104, 105]] ∧
    solDoubleUpload = Except.error "File with this hash already exists" :=
  ⟨rfl, rfl, rfl, rfl⟩

/-- C3 (code-bug evaluation): two registrations in the same millisecond
both report success with the same record id `Date.now().toString()`, and
the second `Map.set` overwrites the first record: the ledger ends with a
single record and the earlier one is gone. -/
theorem record_id_collision_overwrites :
    (handleUpload [] (some ⟨"x.txt", [120], "text/plain"⟩) "dx" 2000).2
      = Response.uploadOk (expectedSummary (⟨"x.txt", [120], "text/plain"⟩, "dx", 2000)) ∧
    (handleUpload (handleUpload [] (some ⟨"x.txt", [120], "text/plain"⟩) "dx" 2000).1
        (some ⟨"y.txt", [121], "text/plain"⟩) "dy" 2000).2
      = Response.uploadOk (expectedSummary (⟨"y.txt", [121], "text/plain"⟩, "dy", 2000)) ∧
    (expectedSummary (⟨"x.txt", [120], "text/plain"⟩, "dx", 2000)).id
      = (expectedSummary (⟨"y.txt", [121], "text/plain"⟩, "dy", 2000)).id ∧
    (mapValues (handleUpload (handleUpload [] (some ⟨"x.txt", [120], "text/plain"⟩) "dx" 2000).1
        (some ⟨"y.txt", [121], "text/plain"⟩) "dy" 2000).1).map (fun r => r.originalName)
      = ["y.txt"] :=
  ⟨rfl, rfl, rfl, rfl⟩

/-- C4 counterexample: a registration with empty display name and empty
content is not rejected: it succeeds and stores a record. -/
theorem empty_input_registration_accepted :
    (handleUpload [] (some ⟨"", [], "text/plain"⟩) "d" 7).2
      = Response.uploadOk (expectedSummary (⟨"", [], "text/plain"⟩, "d", 7)) ∧
    (mapValues (handleUpload [] (some ⟨"", [], "text/plain"⟩) "d" 7).1).length = 1 :=
  ⟨rfl, rfl⟩

/-- C4 (amended): registration validates only that a file is present: with
no file it fails with a 400 error and the ledger is unchanged; with any
file — empty display name or empty content included — it succeeds and a
record carrying the content's fingerprint is stored. -/
theorem register_validates_presence_only (recs : Ledger) (desc : String) (now : Nat)
    (f : UploadedFile) :
    handleUpload recs none desc now = (recs, Response.err 400 "No file uploaded") ∧
    (handleUpload recs (some f) desc now).2
      = Response.uploadOk (expectedSummary (f, desc, now)) ∧
    ∃ r ∈ mapValues (handleUpload recs (some f) desc now).1,
      r.fileHash = calculateFileHash f.content ∧ r.originalName = f.originalname := by
  refine ⟨rfl, rfl, expectedRecord (f, desc, now), ?_, rfl, rfl⟩
  exact mem_mapValues_mapSet recs (toString now) _

/-- Registration summary of the record a registration stores. -/
theorem toSummary_expectedRecord (e : UploadedFile × String × Nat) :
    toSummary (expectedRecord e) = expectedSummary e := rfl

/-- Appending one entry appends one summary. -/
theorem listRecords_append (recs : Ledger) (p : String × FileRecord) :
    listRecords (recs ++ [p]) = listRecords recs ++ [toSummary p.2] := by
  simp [listRecords, mapValues]

/-- One registration with a fresh id appends to the ledger. -/
theorem registerAll_cons (recs : Ledger) (f : UploadedFile) (d : String) (now : Nat)
    (rest : List (UploadedFile × String × Nat))
    (hfr : recs.any (fun p => p.1 == toString now) = false) :
    registerAll recs ((f, d, now) :: rest)
      = registerAll (recs ++ [(toString now, expectedRecord (f, d, now))]) rest := by
  show registerAll (handleUpload recs (some f) d now).1 rest = _
  rw [show (handleUpload recs (some f) d now).1
      = mapSet recs (toString now) (expectedRecord (f, d, now)) from rfl,
    mapSet_not_mem _ _ _ hfr]

/-- Registering a batch whose string ids are pairwise distinct and absent
from the ledger appends exactly one summary per entry, in batch order. -/
theorem listRecords_registerAll (batch : List (UploadedFile × String × Nat)) :
    ∀ recs : Ledger,
      (batch.map (fun e => toString e.2.2)).Nodup →
      (∀ s ∈ batch.map (fun e => toString e.2.2), recs.any (fun p => p.1 == s) = false) →
      listRecords (registerAll recs batch) = listRecords recs ++ batch.map expectedSummary := by
  induction batch with
  | nil =>
      intro recs _ _
      simp [registerAll]
  | cons e rest ih =>
      intro recs hnd hfresh
      obtain ⟨f, d, now⟩ := e
      have hfr : recs.any (fun p => p.1 == toString now) = false := hfresh _ (by simp)
      have hnd₂ : (toString now :: rest.map (fun e => toString e.2.2)).Nodup := by
        simpa using hnd
      have hmem : toString now ∉ rest.map (fun e => toString e.2.2) :=
        (List.nodup_cons.mp hnd₂).1
      have hfresh₂ : ∀ s ∈ rest.map (fun e => toString e.2.2),
          (recs ++ [(toString now, expectedRecord (f, d, now))]).any
            (fun p => p.1 == s) = false := by
        intro s hs
        rw [List.any_append]
        have h1 : recs.any (fun p => p.1 == s) = false := hfresh s (by simp [hs])
        have h2 : ((toString now : String) == s) = false := by
          simp only [beq_eq_false_iff_ne]
          intro h
          exact hmem (h ▸ hs)
        simp [h1, h2]
      rw [registerAll_cons recs f d now rest hfr,
        ih _ (List.nodup_cons.mp hnd₂).2 hfresh₂, listRecords_append,
        toSummary_expectedRecord]
      simp

/-- C5 counterexample: two successful registrations in the same millisecond
leave a single summary in the unfiltered audit list, not two. -/
theorem audit_count_collision :
    (handleUpload [] (some ⟨"p.txt", [112], "text/plain"⟩) "dp" 3000).2
      = Response.uploadOk (expectedSummary (⟨"p.txt", [112], "text/plain"⟩, "dp", 3000)) ∧
    (handleUpload (handleUpload [] (some ⟨"p.txt", [112], "text/plain"⟩) "dp" 3000).1
        (some ⟨"q.txt", [113], "text/plain"⟩) "dq" 3000).2
      = Response.uploadOk (expectedSummary (⟨"q.txt", [113], "text/plain"⟩, "dq", 3000)) ∧
    (listRecords (registerAll [] [(⟨"p.txt", [112], "text/plain"⟩, "dp", 3000),
        (⟨"q.txt", [113], "text/plain"⟩, "dq", 3000)])).length = 1 :=
  ⟨rfl, rfl, rfl⟩

/-- C5 (amended): after `n` successful registrations with pairwise-distinct
creation timestamps, the audit list holds exactly the `n` summaries in
insertion order; a blank filter shows them all, and a non-blank filter
keeps exactly those passing the case-insensitive substring test against
display name, description or fingerprint (logical OR). -/
theorem audit_completeness_and_filter (batch : List (UploadedFile × String × Nat)) (t : String)
    (hids : (batch.map (fun e => toString e.2.2)).Nodup) :
    listRecords (registerAll [] batch) = batch.map expectedSummary ∧
    (listRecords (registerAll [] batch)).length = batch.length ∧
    auditView (registerAll [] batch) t
      = (if (t.trim == "") = true then batch.map expectedSummary
         else (batch.map expectedSummary).filter (fun s => matchesSearch s t)) := by
  have h := listRecords_registerAll batch [] hids (fun s _ => rfl)
  rw [show listRecords [] = [] from rfl, List.nil_append] at h
  refine ⟨h, by rw [h, List.length_map], ?_⟩
  show filterFiles (listRecords (registerAll [] batch)) t = _
  rw [h]
  rfl

/-- Witness for C5: a two-element batch with distinct timestamps and the
filter string "b". -/
theorem audit_completeness_and_filter_witness :
    listRecords (registerAll [] [(⟨"a.txt", [97], "text/plain"⟩, "da", 1),
        (⟨"b.txt", [98], "text/plain"⟩, "db", 2)])
      = [expectedSummary (⟨"a.txt", [97], "text/plain"⟩, "da", 1),
         expectedSummary (⟨"b.txt", [98], "text/plain"⟩, "db", 2)] ∧
    (listRecords (registerAll [] [(⟨"a.txt", [97], "text/plain"⟩, "da", 1),
        (⟨"b.txt", [98], "text/plain"⟩, "db", 2)])).length = 2 ∧
    auditView (registerAll [] [(⟨"a.txt", [97], "text/plain"⟩, "da", 1),
        (⟨"b.txt", [98], "text/plain"⟩, "db", 2)]) "b"
      = (if (("b".trim == "") = true)
         then [expectedSummary (⟨"a.txt", [97], "text/plain"⟩, "da", 1),
               expectedSummary (⟨"b.txt", [98], "text/plain"⟩, "db", 2)]
         else [expectedSummary (⟨"a.txt", [97], "text/plain"⟩, "da", 1),
               expectedSummary (⟨"b.txt", [98], "text/plain"⟩, "db", 2)].filter
           (fun s => matchesSearch s "b")) :=
  audit_completeness_and_filter [(⟨"a.txt", [97], "text/plain"⟩, "da", 1),
    (⟨"b.txt", [98], "text/plain"⟩, "db", 2)] "b" (by decide)
